import Mathlib

/-!
Shallow embedding of the drag/zoom/range-selection interaction core of the
chartjs-plugin-zoom fork (files `src/handlers.js` — provided as
`src/unnamed/part_001` — and `src/plugin.js`), together with proofs of the
specification claims.

Pixel coordinates and configuration numbers are modelled as rationals.
Invocations of external collaborators (chart.js `chart.update`, the core
transform engine's `zoom`/`zoomRect`, DOM `preventDefault`, user callbacks)
are modelled as an emitted list of `Effect`s; `call(cb, args)` on an unset
callback emits nothing, matching the JS helper's no-op behaviour.
-/

namespace ChartZoom

/-- A direction axis. -/
inductive Axis where
  | x
  | y
  deriving DecidableEq

/-- Directional mode `'x' | 'y' | 'xy'` (the function-valued variant is
resolved to a literal before each call, as the spec documents). -/
inductive Mode where
  | x
  | y
  | xy
  deriving DecidableEq

/-- `DRAG_MODE` from `src/state.js`: classification of the active gesture.
The JS state field holds `DRAG_MODE.DRAG`, `DRAG_MODE.RANGE` or `null`;
we model the field as `Option DragMode` with `none` for `null`. -/
inductive DragMode where
  | drag
  | range
  deriving DecidableEq

/-- A modifier key name `'ctrl' | 'alt' | 'shift' | 'meta'`. -/
inductive ModKey where
  | ctrl
  | alt
  | shift
  | meta
  deriving DecidableEq

/-- A point in pixel coordinates relative to the chart's drawing surface. -/
structure Point where
  x : ℚ
  y : ℚ
  deriving DecidableEq

/-- A DOM input event, restricted to the fields the handlers read.
`point` is the position `getRelativePosition(event, chart)` would return
(that helper is an external chart.js collaborator; we store its result on
the event).  `deltaY = none` models the `undefined` delta of the degenerate
duplicate wheel event some browsers emit.  `rectLeft`/`rectTop` are the
`event.target.getBoundingClientRect()` corner. -/
structure MouseEvent where
  button : Nat
  ctrlKey : Bool
  altKey : Bool
  shiftKey : Bool
  metaKey : Bool
  key : String
  point : Point
  deltaY : Option ℚ
  clientX : ℚ
  clientY : ℚ
  cancelable : Bool
  rectLeft : ℚ
  rectTop : ℚ
  deriving DecidableEq

/-- Whether the event flag for a given modifier key is set (`event[key + 'Key']`). -/
def modPressed (k : ModKey) (e : MouseEvent) : Bool :=
  match k with
  | ModKey.ctrl => e.ctrlKey
  | ModKey.alt => e.altKey
  | ModKey.shift => e.shiftKey
  | ModKey.meta => e.metaKey

/-- Modelled from the spec: `keyPressed` of the missing `src/utils.js`.
Per §4.2/§4.3 a gesture's "modifier matched" test and the pan-blocking test
hold only when a modifier key is configured AND its flag is set on the
event (a `null` key is falsy in `key && event[key + 'Key']`). -/
def keyPressed (k : Option ModKey) (e : MouseEvent) : Bool :=
  match k with
  | none => false
  | some k => modPressed k e

/-- Modelled from the spec: `keyNotPressed` of the missing `src/utils.js`.
§4.2's `isBlocked`, the negation of `isAuthorized`: true iff a modifier key
is configured and its flag is NOT set on the event. -/
def keyNotPressed (k : Option ModKey) (e : MouseEvent) : Bool :=
  match k with
  | none => false
  | some k => !modPressed k e

/-- Modelled from the spec: `directionEnabled` of the missing `src/utils.js`.
Per §4.1 a direction is enabled iff the (resolved) mode names it. -/
def directionEnabled (mode : Mode) (a : Axis) : Bool :=
  match mode, a with
  | Mode.xy, _ => true
  | Mode.x, Axis.x => true
  | Mode.y, Axis.y => true
  | _, _ => false

/-- The chart's plottable pixel rectangle (`chart.chartArea`). -/
structure ChartArea where
  left : ℚ
  top : ℚ
  right : ℚ
  bottom : ℚ
  width : ℚ
  height : ℚ
  deriving DecidableEq

/-- An axis scale object, reduced to the single capability the handlers use. -/
structure Scale where
  getValueForPixel : ℚ → ℚ

/-- The host chart, reduced to the fields the handlers read.  `scales` maps a
scale identifier to its scale object; a JS lookup of a missing identifier
yields `undefined`, modelled as `none`. -/
structure Chart where
  chartArea : ChartArea
  scales : String → Option Scale

/-- The data-space translation of a Range rectangle's x edges. -/
structure RangeX where
  left : ℚ
  right : ℚ
  deriving DecidableEq

/-- The data-space translation of a Range rectangle's y edges. -/
structure RangeY where
  top : ℚ
  bottom : ℚ
  deriving DecidableEq

/-- `rangeDataIndex` attached to a Range-mode rectangle. -/
structure RangeDataIndex where
  x : RangeX
  y : RangeY
  deriving DecidableEq

/-- The rectangle value returned by `computeDragRect`. -/
structure DragRect where
  left : ℚ
  top : ℚ
  right : ℚ
  bottom : ℚ
  width : ℚ
  height : ℚ
  zoomX : ℚ
  zoomY : ℚ
  rangeDataIndex : Option RangeDataIndex
  deriving DecidableEq

/-- `computeDragRect(chart, mode, dragMode, mirroring, beginPointEvent, endPointEvent)`
from `src/handlers.js` lines 91-162.  In Range mode the JS code reads
`chart.scales.x` and `chart.scales.y` unconditionally; when either scale is
absent that member access throws a TypeError, modelled here as `none`.
(`zoomX`/`zoomY` use total rational division where the JS division by a zero
`chartWidth` would give an infinity; no claim touches that corner.) -/
def computeDragRect (chart : Chart) (mode : Mode) (dragMode : Option DragMode)
    (mirroring : Bool) (beginE endE : MouseEvent) : Option DragRect :=
  let xEnabled := directionEnabled mode Axis.x
  let yEnabled := directionEnabled mode Axis.y
  let bp := beginE.point
  let ep := endE.point
  let left0 := if xEnabled then min bp.x ep.x else chart.chartArea.left
  let right0 := if xEnabled then max bp.x ep.x else chart.chartArea.right
  let top0 := if yEnabled then min bp.y ep.y else chart.chartArea.top
  let bottom0 := if yEnabled then max bp.y ep.y else chart.chartArea.bottom
  let width0 := right0 - left0
  let height0 := bottom0 - top0
  let lrw :=
    if dragMode = some DragMode.range ∧ xEnabled = true ∧ mirroring = true then
      if bp.x < ep.x then (left0 - width0, right0, width0 + width0)
      else (left0, right0 + width0, width0 + width0)
    else (left0, right0, width0)
  let tbh :=
    if dragMode = some DragMode.range ∧ yEnabled = true ∧ mirroring = true then
      if bp.y < ep.y then (top0 - height0, bottom0, height0 + height0)
      else (top0, bottom0 + height0, height0 + height0)
    else (top0, bottom0, height0)
  let left := lrw.1
  let right := lrw.2.1
  let width := lrw.2.2
  let top := tbh.1
  let bottom := tbh.2.1
  let height := tbh.2.2
  let zoomX := if xEnabled = true ∧ width ≠ 0 then
    1 + (chart.chartArea.width - width) / chart.chartArea.width else 1
  let zoomY := if yEnabled = true ∧ height ≠ 0 then
    1 + (chart.chartArea.height - height) / chart.chartArea.height else 1
  if dragMode = some DragMode.range then
    match chart.scales "x", chart.scales "y" with
    | some sx, some sy =>
      some ⟨left, top, right, bottom, width, height, zoomX, zoomY,
        some ⟨⟨sx.getValueForPixel left, sx.getValueForPixel right⟩,
              ⟨sy.getValueForPixel top, sy.getValueForPixel bottom⟩⟩⟩
    | _, _ => none
  else
    some ⟨left, top, right, bottom, width, height, zoomX, zoomY, none⟩

/-- An entry of the per-chart `handlers` map: the wrapped closure is
identified by a fresh number `hid`, and `target` is the `.target` property
`addHandler` stamps on it (handlers installed by `addDebouncedHandler`
carry no target, hence the `Option`). -/
structure HandlerEntry where
  target : Option Nat
  hid : Nat
  deriving DecidableEq

/-- A listener registration on the DOM side: `target.addEventListener(type, handler)`. -/
structure Dl where
  target : Nat
  ty : String
  hid : Nat
  deriving DecidableEq

/-- `chart.canvas` as a listener target. -/
def canvasTarget : Nat := 0

/-- `window.document` (`canvas.ownerDocument`) as a listener target. -/
def documentTarget : Nat := 1

/-- Look a key up in an association-list model of a JS object. -/
def lookupH : List (String × HandlerEntry) → String → Option HandlerEntry
  | [], _ => none
  | (k, v) :: rest, ty => if k = ty then some v else lookupH rest ty

/-- `delete handlers[type]`. -/
def eraseH (hs : List (String × HandlerEntry)) (ty : String) :
    List (String × HandlerEntry) :=
  hs.filter (fun kv => decide (kv.1 ≠ ty))

/-- `handlers[type] = value` (overwrite). -/
def insertH (hs : List (String × HandlerEntry)) (ty : String) (v : HandlerEntry) :
    List (String × HandlerEntry) :=
  eraseH hs ty ++ [(ty, v)]

/-- The per-chart interaction state (`getState(chart)` plus the DOM listener
registry that `addEventListener`/`removeEventListener` maintain; `fresh`
numbers the closures `addHandler` creates). -/
structure PluginState where
  dragStart : Option MouseEvent
  dragEnd : Option MouseEvent
  dragging : Bool
  dragMode : Option DragMode
  handlers : List (String × HandlerEntry)
  dom : List Dl
  fresh : Nat
  deriving DecidableEq

/-- Modelled from the spec: the initial `InteractionState` created by the
missing `src/state.js` on plugin attach — no pending drag, `dragMode` None,
no handlers (§3 Data Model, lifecycle and invariant). -/
def initialState : PluginState :=
  { dragStart := none, dragEnd := none, dragging := false, dragMode := none
    handlers := [], dom := [], fresh := 0 }

/-- `removeHandler(chart, type)` from `src/handlers.js` lines 6-13: if a
handler of this type exists and has a target, remove the DOM listener and
delete the map entry; otherwise do nothing. -/
def removeHandler (s : PluginState) (ty : String) : PluginState :=
  match lookupH s.handlers ty with
  | none => s
  | some h =>
    match h.target with
    | none => s
    | some t =>
      { s with
        handlers := eraseH s.handlers ty
        dom := s.dom.filter (fun d => decide (d ≠ ⟨t, ty, h.hid⟩)) }

/-- The unconditional tail of `addHandler`: wrap a fresh closure, stamp its
target, store it and register it with the DOM. -/
def addFresh (s : PluginState) (t : Nat) (ty : String) : PluginState :=
  { s with
    handlers := insertH s.handlers ty ⟨some t, s.fresh⟩
    dom := s.dom ++ [⟨t, ty, s.fresh⟩]
    fresh := s.fresh + 1 }

/-- `addHandler(chart, target, type, handler)` from `src/handlers.js` lines
15-26: a no-op when the stored handler's target is already `target`,
otherwise remove the old handler first and install a fresh one. -/
def addHandler (s : PluginState) (t : Nat) (ty : String) : PluginState :=
  match lookupH s.handlers ty with
  | some h => if h.target = some t then s else addFresh (removeHandler s ty) t ty
  | none => addFresh (removeHandler s ty) t ty

/-- An observable invocation of an external collaborator or configured
callback during a handler step. -/
inductive Effect where
  | updateNone
  | zoomRectCall (p0 p1 : Point)
  | onZoomComplete
  | debouncedZoomComplete
  | onRangeSelected (rdi : RangeDataIndex)
  | onZoomRejected (e : MouseEvent)
  | onZoomStartCalled
  | preventDefault
  | zoomCall (x y : ℚ) (focal : Point)
  | scheduleDraggingClear
  deriving DecidableEq

/-- `call(cb, args)`: invoking a configured callback emits its effect, an
unset callback is a no-op. -/
def callEffect (configured : Bool) (eff : Effect) : List Effect :=
  if configured then [eff] else []

/-- `options.pan` fields read by the handlers. -/
structure PanOptions where
  modifierKey : Option ModKey

/-- `options.zoom.wheel` fields read by the handlers. -/
structure WheelOptions where
  enabled : Bool
  speed : ℚ
  modifierKey : Option ModKey

/-- `options.zoom.drag` fields read by the handlers. -/
structure DragOptions where
  enabled : Bool
  threshold : ℚ
  modifierKey : Option ModKey

/-- `options.zoom` fields read by the handlers.  Callback configuration is
modelled by presence flags, except `onZoomStart` whose return value can veto
a gesture (`none` = unset, `some f` = configured with veto decision `f`). -/
structure ZoomOptions where
  mode : Mode
  wheel : WheelOptions
  drag : DragOptions
  onZoomComplete : Bool
  onZoomRejected : Bool
  onZoomStart : Option (MouseEvent → Bool)

/-- `options.range` fields read by the handlers. -/
structure RangeOptions where
  enabled : Bool
  mode : Mode
  mirroring : Bool
  modifierKey : Option ModKey
  onRangeSelected : Bool

/-- The plugin options snapshot held in `state.options`. -/
structure PluginOptions where
  pan : PanOptions
  zoom : ZoomOptions
  range : RangeOptions

/-- `zoomStart(chart, event, zoomOptions)` from `src/handlers.js` lines
49-58: when `onZoomStart` is configured it is invoked; a `false` return
vetoes the gesture and fires `onZoomRejected`.  Returns whether to proceed
plus the emitted effects. -/
def zoomStart (opts : PluginOptions) (e : MouseEvent) : Bool × List Effect :=
  match opts.zoom.onZoomStart with
  | none => (true, [])
  | some f =>
    if f e then (true, [Effect.onZoomStartCalled])
    else (false, Effect.onZoomStartCalled ::
      callEffect opts.zoom.onZoomRejected (Effect.onZoomRejected e))

/-- `mouseMove(chart, event)` from `src/handlers.js` lines 28-35. -/
def mouseMove (s : PluginState) (e : MouseEvent) : PluginState × List Effect :=
  if s.dragStart.isSome then
    ({ s with dragging := true, dragEnd := some e }, [Effect.updateNone])
  else (s, [])

/-- `keyDown(chart, event)` from `src/handlers.js` lines 37-47: Escape with
a pending drag removes the keydown handler, stops dragging, clears
`dragStart`/`dragEnd` and requests a non-animated redraw. -/
def keyDown (s : PluginState) (e : MouseEvent) : PluginState × List Effect :=
  if s.dragStart = none ∨ e.key ≠ "Escape" then (s, [])
  else
    let s1 := removeHandler s "keydown"
    ({ s1 with dragging := false, dragStart := none, dragEnd := none },
      [Effect.updateNone])

/-- `mouseDown(chart, event)` from `src/handlers.js` lines 60-89. -/
def mouseDown (s : PluginState) (e : MouseEvent) (opts : PluginOptions) :
    PluginState × List Effect :=
  if e.button ≠ 0 ∨ keyPressed opts.pan.modifierKey e = true ∨
      (keyNotPressed opts.range.modifierKey e = true ∧
        keyNotPressed opts.zoom.drag.modifierKey e = true) then
    (s, callEffect opts.zoom.onZoomRejected (Effect.onZoomRejected e))
  else
    match zoomStart opts e with
    | (false, effs) => (s, effs)
    | (true, effs) =>
      let s1 :=
        if keyPressed opts.zoom.drag.modifierKey e then
          { s with dragMode := some DragMode.drag }
        else if keyPressed opts.range.modifierKey e then
          { s with dragMode := some DragMode.range }
        else s
      let s2 := { s1 with dragStart := some e }
      let s3 := addHandler s2 canvasTarget "mousemove"
      let s4 := addHandler s3 documentTarget "keydown"
      (s4, effs)

/-- The threshold test of `mouseUp`: the source computes
`Math.sqrt(dsq) <= threshold`; for a nonnegative `dsq` that comparison holds
exactly when `0 ≤ threshold ∧ dsq ≤ threshold * threshold`
(see `distanceLe_iff_sqrt_le`). -/
def distanceLe (dsq threshold : ℚ) : Bool :=
  decide (0 ≤ threshold ∧ dsq ≤ threshold * threshold)

/-- `mouseUp(chart, event)` from `src/handlers.js` lines 164-204.  Returns
`none` exactly when the underlying `computeDragRect` call would throw
(Range mode with a missing `x` or `y` scale). -/
def mouseUp (chart : Chart) (s : PluginState) (e : MouseEvent)
    (opts : PluginOptions) : Option (PluginState × List Effect) :=
  match s.dragStart with
  | none => some (s, [])
  | some e0 =>
    let s1 := removeHandler s "mousemove"
    let mode := if s.dragMode = some DragMode.range then opts.range.mode
      else opts.zoom.mode
    match computeDragRect chart mode s.dragMode opts.range.mirroring e0 e with
    | none => none
    | some rect =>
      let distanceX := if directionEnabled mode Axis.x then rect.width else 0
      let distanceY := if directionEnabled mode Axis.y then rect.height else 0
      let s2 := { s1 with dragStart := none, dragEnd := none }
      if distanceLe (distanceX * distanceX + distanceY * distanceY)
          opts.zoom.drag.threshold then
        some ({ s2 with dragging := false, dragMode := none },
          [Effect.updateNone])
      else if s.dragMode = some DragMode.drag then
        some ({ s2 with dragMode := none },
          Effect.zoomRectCall ⟨rect.left, rect.top⟩ ⟨rect.right, rect.bottom⟩ ::
            callEffect opts.zoom.onZoomComplete Effect.onZoomComplete ++
            [Effect.scheduleDraggingClear])
      else if s.dragMode = some DragMode.range then
        match rect.rangeDataIndex with
        | some rdi => some ({ s2 with dragMode := none },
            callEffect opts.range.onRangeSelected (Effect.onRangeSelected rdi) ++
              [Effect.scheduleDraggingClear])
        | none => none
      else
        some ({ s2 with dragMode := none }, [Effect.scheduleDraggingClear])

/-- `wheelPreconditions(chart, event, zoomOptions)` from `src/handlers.js`
lines 206-228: modifier gate, optional start veto, then `preventDefault`
for cancelable events, and only after that the degenerate-delta check. -/
def wheelPreconditions (e : MouseEvent) (opts : PluginOptions) :
    Bool × List Effect :=
  if keyNotPressed opts.zoom.wheel.modifierKey e then
    (false, callEffect opts.zoom.onZoomRejected (Effect.onZoomRejected e))
  else
    match zoomStart opts e with
    | (false, effs) => (false, effs)
    | (true, effs) =>
      let effs := effs ++ (if e.cancelable then [Effect.preventDefault] else [])
      if e.deltaY = none then (false, effs) else (true, effs)

/-- `wheel(chart, event)` from `src/handlers.js` lines 230-256.  The
debounced completion handler stored under the `onZoomComplete` key of the
handlers map is invoked when present. -/
def wheel (s : PluginState) (e : MouseEvent) (opts : PluginOptions) :
    List Effect :=
  match wheelPreconditions e opts with
  | (false, effs) => effs
  | (true, effs) =>
    match e.deltaY with
    | none => effs
    | some d =>
      let speed := 1 + (if 0 ≤ d then -opts.zoom.wheel.speed
        else opts.zoom.wheel.speed)
      effs ++ [Effect.zoomCall speed speed
          ⟨e.clientX - e.rectLeft, e.clientY - e.rectTop⟩] ++
        (if (lookupH s.handlers "onZoomComplete").isSome then
          [Effect.debouncedZoomComplete] else [])

/-! Concrete fixtures used to exercise the handlers. -/

/-- A primary-button event with no modifier flags at the origin. -/
def baseEvent : MouseEvent :=
  { button := 0, ctrlKey := false, altKey := false, shiftKey := false
    metaKey := false, key := "", point := ⟨0, 0⟩, deltaY := none
    clientX := 0, clientY := 0, cancelable := false, rectLeft := 0, rectTop := 0 }

/-- A primary-button event at a given chart-relative position. -/
def evAt (px py : ℚ) : MouseEvent := { baseEvent with point := ⟨px, py⟩ }

/-- A 400×300 chart with plot area spanning (0,0)-(400,300) and identity
pixel-to-value scales named `x` and `y`. -/
def chartStd : Chart :=
  { chartArea := ⟨0, 0, 400, 300, 400, 300⟩
    scales := fun s =>
      if s = "x" then some ⟨fun p => p⟩
      else if s = "y" then some ⟨fun p => p⟩
      else none }

/-- Options: drag-zoom enabled with no modifier key, mode `xy`, threshold 10,
wheel speed 0.1, range selection on `alt` with mode `x` and mirroring. -/
def optsStd : PluginOptions :=
  { pan := ⟨none⟩
    zoom := { mode := Mode.xy, wheel := ⟨true, 1/10, none⟩
              drag := ⟨true, 10, none⟩
              onZoomComplete := true, onZoomRejected := true, onZoomStart := none }
    range := ⟨true, Mode.x, true, some ModKey.alt, true⟩ }

/-- `optsStd` with drag-zoom gated on the ctrl key. -/
def optsCtrlDrag : PluginOptions :=
  { optsStd with zoom := { optsStd.zoom with drag := ⟨true, 10, some ModKey.ctrl⟩ } }

/-- A mousedown event with the ctrl flag set. -/
def eDownCtrl : MouseEvent := { baseEvent with ctrlKey := true }

/-- An Escape keydown event. -/
def escEvent : MouseEvent := { baseEvent with key := "Escape" }

/-- A cancelable wheel event whose `deltaY` is `undefined`. -/
def wheelDegenEvent : MouseEvent := { baseEvent with cancelable := true }

/-- The state a `mouseDown` at (50,50) followed by a `mouseMove` to (160,170)
leaves behind: both listeners installed, drag pending in Drag mode. -/
def dragState : PluginState :=
  { dragStart := some (evAt 50 50), dragEnd := some (evAt 160 170)
    dragging := true, dragMode := some DragMode.drag
    handlers := [("mousemove", ⟨some canvasTarget, 0⟩), ("keydown", ⟨some documentTarget, 1⟩)]
    dom := [⟨canvasTarget, "mousemove", 0⟩, ⟨documentTarget, "keydown", 1⟩]
    fresh := 2 }

/-- The rectangle `computeDragRect` produces on `chartStd` for a plain drag
from (0,0) to (10,20) in mode `xy`. -/
def rectDemo : DragRect := ⟨0, 0, 10, 20, 10, 20, 79/40, 29/15, none⟩

/-- The rectangle `computeDragRect` produces on `chartStd` for a mirrored
Range gesture from (1,2) to (3,4) in mode `xy`. -/
def rectRangeDemo : DragRect :=
  ⟨-1, 0, 3, 4, 4, 4, 199/100, 149/75, some ⟨⟨-1, 3⟩, ⟨0, 4⟩⟩⟩

/-- A cancelable wheel event with a defined downward delta. -/
def wheelEvt : MouseEvent :=
  { baseEvent with
    deltaY := some 3
    cancelable := true
    clientX := 20
    clientY := 30
    rectLeft := 4
    rectTop := 6 }

/-- The rectangle `computeDragRect` produces on `chartStd` for the Drag
gesture from (50,50) to (160,170) in mode `xy`. -/
def rectDrag : DragRect := ⟨50, 50, 160, 170, 110, 120, 69/40, 8/5, none⟩

/-- The DOM registrations of a given event type. -/
def filterTy (dom : List Dl) (ty : String) : List Dl :=
  dom.filter (fun d => decide (d.ty = ty))

/-- Well-formedness of the listener registry at one event type: the DOM
registrations of that type are exactly the one the handlers map records
(none for an absent or target-less entry).  Every state reachable through
`addHandler`/`removeHandler` satisfies this at every type. -/
def domMatches (s : PluginState) (ty : String) : Bool :=
  match lookupH s.handlers ty with
  | some h =>
    match h.target with
    | some t => decide (filterTy s.dom ty = [⟨t, ty, h.hid⟩])
    | none => decide (filterTy s.dom ty = [])
  | none => decide (filterTy s.dom ty = [])

/-- First half of the §3 invariant: `dragEnd` is non-null only while
`dragStart` is non-null. -/
def Inv1 (s : PluginState) : Prop :=
  s.dragEnd.isSome = true → s.dragStart.isSome = true

/-- Second half of the §3 invariant: `dragMode` is None whenever both
`dragStart` and `dragEnd` are null. -/
def Inv2 (s : PluginState) : Prop :=
  s.dragStart = none → s.dragEnd = none → s.dragMode = none

/-! Association-list and filter helper lemmas. -/

theorem lookupH_eraseH (hs : List (String × HandlerEntry)) (ty ty' : String) :
    lookupH (eraseH hs ty) ty' = if ty' = ty then none else lookupH hs ty' := by
  induction hs with
  | nil => by_cases h : ty' = ty <;> simp [eraseH, lookupH, h]
  | cons kv rest ih =>
    by_cases hk : kv.1 = ty
    · have h1 : eraseH (kv :: rest) ty = eraseH rest ty := by
        simp [eraseH, List.filter_cons, hk]
      rw [h1, ih]
      by_cases h : ty' = ty
      · simp [h]
      · have hkv : kv.1 ≠ ty' := by rw [hk]; exact fun hh => h hh.symm
        simp [h, lookupH, hkv]
    · have h1 : eraseH (kv :: rest) ty = kv :: eraseH rest ty := by
        simp [eraseH, List.filter_cons, hk]
      rw [h1]
      by_cases hkv : kv.1 = ty'
      · have h : ty' ≠ ty := by rw [← hkv]; exact hk
        simp [lookupH, hkv, h]
      · simp [lookupH, hkv, ih]

theorem lookupH_append_single (hs : List (String × HandlerEntry)) (ty ty' : String)
    (v : HandlerEntry) :
    lookupH (hs ++ [(ty, v)]) ty' =
      match lookupH hs ty' with
      | some w => some w
      | none => if ty = ty' then some v else none := by
  induction hs with
  | nil => simp [lookupH]
  | cons kv rest ih =>
    simp only [List.cons_append, lookupH]
    by_cases hk : kv.1 = ty'
    · simp [hk]
    · simp [hk, ih]

theorem lookupH_insertH (hs : List (String × HandlerEntry)) (ty ty' : String)
    (v : HandlerEntry) :
    lookupH (insertH hs ty v) ty' = if ty' = ty then some v else lookupH hs ty' := by
  rw [insertH, lookupH_append_single, lookupH_eraseH]
  rcases eq_or_ne ty' ty with h | h
  · simp [h]
  · simp [h, Ne.symm h]
    rcases lookupH hs ty' with _ | w <;> simp [Ne.symm h]

theorem filterTy_append (l1 l2 : List Dl) (ty : String) :
    filterTy (l1 ++ l2) ty = filterTy l1 ty ++ filterTy l2 ty := by
  simp [filterTy, List.filter_append]

theorem filterTy_filter (dom : List Dl) (q : Dl → Bool) (ty : String) :
    filterTy (dom.filter q) ty = (filterTy dom ty).filter q := by
  simp only [filterTy]
  rw [List.filter_comm]

theorem domMatches_none {s : PluginState} {ty : String}
    (hl : lookupH s.handlers ty = none) (hwf : domMatches s ty = true) :
    filterTy s.dom ty = [] := by
  unfold domMatches at hwf
  rw [hl] at hwf
  exact of_decide_eq_true hwf

theorem domMatches_some_none {s : PluginState} {ty : String} {h : HandlerEntry}
    (hl : lookupH s.handlers ty = some h) (ht : h.target = none)
    (hwf : domMatches s ty = true) :
    filterTy s.dom ty = [] := by
  unfold domMatches at hwf
  rw [hl] at hwf
  have hwf2 : (match h.target with
    | some t => decide (filterTy s.dom ty = [⟨t, ty, h.hid⟩])
    | none => decide (filterTy s.dom ty = [])) = true := hwf
  rw [ht] at hwf2
  exact of_decide_eq_true hwf2

theorem domMatches_some_some {s : PluginState} {ty : String} {h : HandlerEntry}
    {t0 : Nat} (hl : lookupH s.handlers ty = some h) (ht : h.target = some t0)
    (hwf : domMatches s ty = true) :
    filterTy s.dom ty = [⟨t0, ty, h.hid⟩] := by
  unfold domMatches at hwf
  rw [hl] at hwf
  have hwf2 : (match h.target with
    | some t => decide (filterTy s.dom ty = [⟨t, ty, h.hid⟩])
    | none => decide (filterTy s.dom ty = [])) = true := hwf
  rw [ht] at hwf2
  exact of_decide_eq_true hwf2

theorem addFresh_spec (s1 : PluginState) (t : Nat) (ty : String)
    (hdom : filterTy s1.dom ty = []) :
    addHandler (addFresh s1 t ty) t ty = addFresh s1 t ty
    ∧ (filterTy (addFresh s1 t ty).dom ty).length = 1
    ∧ ∀ d ∈ filterTy (addFresh s1 t ty).dom ty, d.target = t := by
  have hl2 : lookupH (addFresh s1 t ty).handlers ty = some ⟨some t, s1.fresh⟩ := by
    simp [addFresh, lookupH_insertH]
  have hft : filterTy (addFresh s1 t ty).dom ty = [⟨t, ty, s1.fresh⟩] := by
    show filterTy (s1.dom ++ [⟨t, ty, s1.fresh⟩]) ty = [⟨t, ty, s1.fresh⟩]
    rw [filterTy_append, hdom]
    simp [filterTy]
  refine ⟨by simp [addHandler, hl2], by rw [hft]; rfl, ?_⟩
  intro d hd
  rw [hft] at hd
  simp at hd
  rw [hd]

/-- Claim C8: listener registration is idempotent — attaching the same
target and event type twice leaves exactly one registered listener of that
type (the second call is a no-op), attaching the same type to a different
target removes the old listener first (all remaining listeners of that type
point at the new target), and removing an event type with no attached
handler is a no-op. -/
theorem addHandler_attach_spec (s : PluginState) (t : Nat) (ty : String)
    (hwf : domMatches s ty = true) :
    addHandler (addHandler s t ty) t ty = addHandler s t ty
    ∧ (filterTy (addHandler s t ty).dom ty).length = 1
    ∧ (∀ d ∈ filterTy (addHandler s t ty).dom ty, d.target = t)
    ∧ (lookupH s.handlers ty = none → removeHandler s ty = s) := by
  rcases hl : lookupH s.handlers ty with _ | h
  · have hrm : removeHandler s ty = s := by simp [removeHandler, hl]
    have hdom : filterTy s.dom ty = [] := domMatches_none hl hwf
    have hadd : addHandler s t ty = addFresh s t ty := by
      simp [addHandler, hl, hrm]
    obtain ⟨h1, h2, h3⟩ := addFresh_spec s t ty hdom
    exact ⟨by rw [hadd]; exact h1, by rw [hadd]; exact h2, by rw [hadd]; exact h3,
      fun _ => hrm⟩
  · by_cases ht : h.target = some t
    · have hadd : addHandler s t ty = s := by simp [addHandler, hl, ht]
      have hdom : filterTy s.dom ty = [⟨t, ty, h.hid⟩] := domMatches_some_some hl ht hwf
      refine ⟨by rw [hadd, hadd], by rw [hadd, hdom]; rfl, ?_,
        fun hn => by simp [hl] at hn⟩
      rw [hadd, hdom]
      intro d hd
      simp at hd
      rw [hd]
    · have hadd : addHandler s t ty = addFresh (removeHandler s ty) t ty := by
        simp [addHandler, hl, ht]
      have hdom2 : filterTy (removeHandler s ty).dom ty = [] := by
        rcases ht0 : h.target with _ | t0
        · have hrm : removeHandler s ty = s := by simp [removeHandler, hl, ht0]
          rw [hrm, domMatches_some_none hl ht0 hwf]
        · have hdom : filterTy s.dom ty = [⟨t0, ty, h.hid⟩] :=
            domMatches_some_some hl ht0 hwf
          have hrm : removeHandler s ty =
              { s with handlers := eraseH s.handlers ty
                       dom := s.dom.filter (fun d => decide (d ≠ ⟨t0, ty, h.hid⟩)) } := by
            simp [removeHandler, hl, ht0]
          rw [hrm]
          show filterTy (s.dom.filter _) ty = []
          rw [filterTy_filter, hdom]
          simp
      obtain ⟨h1, h2, h3⟩ := addFresh_spec (removeHandler s ty) t ty hdom2
      exact ⟨by rw [hadd]; exact h1, by rw [hadd]; exact h2, by rw [hadd]; exact h3,
        fun hn => by simp [hl] at hn⟩

theorem removeHandler_drag_fields (s : PluginState) (ty : String) :
    (removeHandler s ty).dragStart = s.dragStart
    ∧ (removeHandler s ty).dragEnd = s.dragEnd
    ∧ (removeHandler s ty).dragMode = s.dragMode
    ∧ (removeHandler s ty).dragging = s.dragging
    ∧ (removeHandler s ty).fresh = s.fresh := by
  rcases hl : lookupH s.handlers ty with _ | h
  · simp [removeHandler, hl]
  · rcases ht : h.target with _ | t0 <;> simp [removeHandler, hl, ht]

theorem addHandler_drag_fields (s : PluginState) (t : Nat) (ty : String) :
    (addHandler s t ty).dragStart = s.dragStart
    ∧ (addHandler s t ty).dragEnd = s.dragEnd
    ∧ (addHandler s t ty).dragMode = s.dragMode
    ∧ (addHandler s t ty).dragging = s.dragging := by
  obtain ⟨f1, f2, f3, f4, _⟩ := removeHandler_drag_fields s ty
  rcases hl : lookupH s.handlers ty with _ | h
  · simp [addHandler, addFresh, hl, f1, f2, f3, f4]
  · by_cases ht : h.target = some t
    · simp [addHandler, hl, ht]
    · simp [addHandler, addFresh, hl, ht, f1, f2, f3, f4]

theorem lookupH_removeHandler_self (s : PluginState) (ty : String)
    (htgt : ∀ h, lookupH s.handlers ty = some h → h.target.isSome = true) :
    lookupH (removeHandler s ty).handlers ty = none := by
  rcases hl : lookupH s.handlers ty with _ | h
  · simp [removeHandler, hl]
  · rcases ht : h.target with _ | t0
    · have := htgt h hl
      rw [ht] at this
      cases this
    · simp [removeHandler, hl, ht, lookupH_eraseH]

theorem lookupH_removeHandler_ne (s : PluginState) (ty ty' : String)
    (hne : ty' ≠ ty) :
    lookupH (removeHandler s ty).handlers ty' = lookupH s.handlers ty' := by
  rcases hl : lookupH s.handlers ty with _ | h
  · simp [removeHandler, hl]
  · rcases ht : h.target with _ | t0
    · simp [removeHandler, hl, ht]
    · simp [removeHandler, hl, ht, lookupH_eraseH, hne]

/-- Every successful `mouseUp` step either returns early with the state
unchanged (no pending drag) or ends with `dragStart`, `dragEnd` and
`dragMode` all cleared. -/
theorem mouseUp_cases (chart : Chart) (s : PluginState) (e : MouseEvent)
    (opts : PluginOptions) (s' : PluginState) (effs : List Effect)
    (h : mouseUp chart s e opts = some (s', effs)) :
    (s.dragStart = none ∧ s' = s ∧ effs = [])
    ∨ (s'.dragStart = none ∧ s'.dragEnd = none ∧ s'.dragMode = none) := by
  rcases hds : s.dragStart with _ | e0
  · left
    simp only [mouseUp, hds] at h
    exact ⟨rfl, by injection h with h2; exact (congrArg Prod.fst h2).symm,
      by injection h with h2; exact (congrArg Prod.snd h2).symm⟩
  · right
    simp only [mouseUp, hds] at h
    rcases hr : computeDragRect chart
        (if s.dragMode = some DragMode.range then opts.range.mode else opts.zoom.mode)
        s.dragMode opts.range.mirroring e0 e with _ | rect
    · rw [hr] at h
      cases h
    · rw [hr] at h
      repeat' split at h
      all_goals (cases h <;> exact ⟨rfl, rfl, rfl⟩)

theorem mouseDown_state (s : PluginState) (e : MouseEvent) (opts : PluginOptions) :
    (mouseDown s e opts).1 = s
    ∨ ((mouseDown s e opts).1.dragStart = some e
        ∧ (mouseDown s e opts).1.dragEnd = s.dragEnd) := by
  unfold mouseDown
  split
  · exact Or.inl rfl
  · rcases hz : zoomStart opts e with ⟨b, effs⟩
    cases b
    · exact Or.inl rfl
    · right
      constructor
      · rw [(addHandler_drag_fields _ documentTarget "keydown").1,
          (addHandler_drag_fields _ canvasTarget "mousemove").1]
      · rw [(addHandler_drag_fields _ documentTarget "keydown").2.1,
          (addHandler_drag_fields _ canvasTarget "mousemove").2.1]
        split
        · rfl
        · split
          · rfl
          · rfl

/-- Claim C5 counterexample: from a mid-drag state with both listeners
installed, an Escape keydown leaves the mousemove listener attached (both in
the handlers map and in the DOM registry) — the claim says the handler
detaches the move listener. -/
theorem keyDown_escape_counterexample :
    dragState.dragStart.isSome = true
    ∧ escEvent.key = "Escape"
    ∧ lookupH (keyDown dragState escEvent).1.handlers "mousemove" =
        some ⟨some canvasTarget, 0⟩
    ∧ (⟨canvasTarget, "mousemove", 0⟩ : Dl) ∈ (keyDown dragState escEvent).1.dom := by
  decide

/-- Claim C5 (amended): an Escape keydown while a drag is pending clears
`dragStart`/`dragEnd`, stops dragging, requests a non-animated redraw, and
detaches the KEYDOWN listener — the mousemove listener is left untouched;
an Escape (or any other key) with no pending drag changes nothing. -/
theorem keyDown_escape_spec (s : PluginState) (e : MouseEvent)
    (htgt : ∀ h, lookupH s.handlers "keydown" = some h → h.target.isSome = true) :
    (s.dragStart.isSome = true → e.key = "Escape" →
      keyDown s e =
        ({ removeHandler s "keydown" with
            dragging := false, dragStart := none, dragEnd := none },
          [Effect.updateNone])
      ∧ lookupH (keyDown s e).1.handlers "keydown" = none
      ∧ lookupH (keyDown s e).1.handlers "mousemove" = lookupH s.handlers "mousemove"
      ∧ (keyDown s e).1.dragStart = none ∧ (keyDown s e).1.dragEnd = none
      ∧ (keyDown s e).1.dragging = false)
    ∧ ((s.dragStart = none ∨ e.key ≠ "Escape") → keyDown s e = (s, [])) := by
  constructor
  · intro h1 h2
    have hne : s.dragStart ≠ none := Option.isSome_iff_ne_none.mp h1
    have hneg : ¬(s.dragStart = none ∨ e.key ≠ "Escape") := fun hc =>
      hc.elim (fun ha => hne ha) (fun hb => hb h2)
    have hk : keyDown s e =
        ({ removeHandler s "keydown" with
            dragging := false, dragStart := none, dragEnd := none },
          [Effect.updateNone]) := by
      unfold keyDown
      rw [if_neg hneg]
    refine ⟨hk, ?_, ?_, by rw [hk], by rw [hk], by rw [hk]⟩
    · rw [hk]
      exact lookupH_removeHandler_self s "keydown" htgt
    · rw [hk]
      exact lookupH_removeHandler_ne s "keydown" "mousemove" (by decide)
  · intro hcase
    unfold keyDown
    rw [if_pos hcase]

/-- Witness for the amended C5 at the concrete mid-drag state. -/
theorem keyDown_escape_spec_witness :
    (dragState.dragStart.isSome = true → escEvent.key = "Escape" →
      keyDown dragState escEvent =
        ({ removeHandler dragState "keydown" with
            dragging := false, dragStart := none, dragEnd := none },
          [Effect.updateNone])
      ∧ lookupH (keyDown dragState escEvent).1.handlers "keydown" = none
      ∧ lookupH (keyDown dragState escEvent).1.handlers "mousemove" =
          lookupH dragState.handlers "mousemove"
      ∧ (keyDown dragState escEvent).1.dragStart = none
      ∧ (keyDown dragState escEvent).1.dragEnd = none
      ∧ (keyDown dragState escEvent).1.dragging = false)
    ∧ ((dragState.dragStart = none ∨ escEvent.key ≠ "Escape") →
        keyDown dragState escEvent = (dragState, [])) :=
  keyDown_escape_spec dragState escEvent (fun h hh => by
    have h2 : (⟨some documentTarget, 1⟩ : HandlerEntry) = h := Option.some.inj hh
    rw [← h2]
    rfl)

/-- Claim C4 counterexample: starting from the initial state, a mousedown
with the ctrl modifier (drag gated on ctrl) followed by an Escape keydown
reaches a state with `dragStart` and `dragEnd` both null but `dragMode`
still Drag — the `dragMode = None when both are null` half of the invariant
fails after the keyDown step. -/
theorem interaction_invariant_counterexample :
    (keyDown (mouseDown initialState eDownCtrl optsCtrlDrag).1 escEvent).1.dragStart = none
    ∧ (keyDown (mouseDown initialState eDownCtrl optsCtrlDrag).1 escEvent).1.dragEnd = none
    ∧ (keyDown (mouseDown initialState eDownCtrl optsCtrlDrag).1 escEvent).1.dragMode =
        some DragMode.drag := by
  decide

/-- Claim C4 (amended): the initial state satisfies both invariant halves;
the half `dragEnd non-null only while dragStart non-null` is preserved by
every handler step; the half `dragMode is None when both are null` is
preserved by `mouseDown`, `mouseMove` and `mouseUp`, but `keyDown` (Escape)
clears `dragStart`/`dragEnd` while leaving `dragMode` unchanged, so the full
invariant fails after a cancelled gesture. -/
theorem interaction_invariant_spec (chart : Chart) (s : PluginState)
    (e : MouseEvent) (opts : PluginOptions) :
    (Inv1 initialState ∧ Inv2 initialState)
    ∧ (Inv1 s → Inv1 (mouseDown s e opts).1 ∧ Inv1 (mouseMove s e).1
        ∧ Inv1 (keyDown s e).1
        ∧ ∀ s' effs, mouseUp chart s e opts = some (s', effs) → Inv1 s')
    ∧ (Inv2 s → Inv2 (mouseDown s e opts).1 ∧ Inv2 (mouseMove s e).1
        ∧ ∀ s' effs, mouseUp chart s e opts = some (s', effs) → Inv2 s')
    ∧ (keyDown s e).1.dragMode = s.dragMode := by
  refine ⟨⟨fun h => by simp [initialState] at h, fun _ _ => rfl⟩, ?_, ?_, ?_⟩
  · intro h1
    refine ⟨?_, ?_, ?_, ?_⟩
    · rcases mouseDown_state s e opts with hm | ⟨ha, _⟩
      · rw [hm]; exact h1
      · intro _
        rw [ha]
        rfl
    · unfold mouseMove
      split
      · intro _
        assumption
      · exact h1
    · unfold keyDown
      split
      · exact h1
      · intro hh
        simp at hh
    · intro s' effs hsu
      rcases mouseUp_cases chart s e opts s' effs hsu with ⟨_, rfl, _⟩ | ⟨_, h2', _⟩
      · exact h1
      · intro hh
        rw [h2'] at hh
        simp at hh
  · intro h2
    refine ⟨?_, ?_, ?_⟩
    · rcases mouseDown_state s e opts with hm | ⟨ha, _⟩
      · rw [hm]; exact h2
      · intro hs0 _
        rw [ha] at hs0
        cases hs0
    · unfold mouseMove
      split
      · intro hs0 _
        exact absurd hs0 (Option.isSome_iff_ne_none.mp (by assumption))
      · exact h2
    · intro s' effs hsu
      rcases mouseUp_cases chart s e opts s' effs hsu with ⟨_, rfl, _⟩ | ⟨_, _, h3'⟩
      · exact h2
      · intro _ _
        exact h3'
  · unfold keyDown
    split
    · rfl
    · exact (removeHandler_drag_fields s "keydown").2.2.1

/-- Witness for the amended C4 at the initial state. -/
theorem interaction_invariant_spec_witness :
    Inv1 (mouseDown initialState escEvent optsStd).1
    ∧ Inv2 (mouseDown initialState escEvent optsStd).1
    ∧ (keyDown initialState escEvent).1.dragMode = initialState.dragMode := by
  obtain ⟨hinit, hi1, hi2, hk⟩ :=
    interaction_invariant_spec chartStd initialState escEvent optsStd
  exact ⟨(hi1 hinit.1).1, (hi2 hinit.2).1, hk⟩

/-- Witness for C8 at a concrete state: attach to the empty initial state. -/
theorem addHandler_attach_spec_witness :
    addHandler (addHandler initialState canvasTarget "mousemove") canvasTarget "mousemove" =
      addHandler initialState canvasTarget "mousemove"
    ∧ (filterTy (addHandler initialState canvasTarget "mousemove").dom "mousemove").length = 1
    ∧ (∀ d ∈ filterTy (addHandler initialState canvasTarget "mousemove").dom "mousemove",
        d.target = canvasTarget)
    ∧ (lookupH initialState.handlers "mousemove" = none →
        removeHandler initialState "mousemove" = initialState) :=
  addHandler_attach_spec initialState canvasTarget "mousemove" (by decide)

set_option maxHeartbeats 1600000 in
/-- Claim C3: with direction mode `xy`, for any two input points in either
order and any gesture kind (Drag, Range, or none) with or without mirroring,
any rectangle `computeDragRect` returns satisfies `left ≤ right` and
`top ≤ bottom`, provided the chart's plottable area is itself normalized. -/
theorem computeDragRect_normalized (chart : Chart) (dm : Option DragMode)
    (mirroring : Bool) (e1 e2 : MouseEvent)
    (hca1 : chart.chartArea.left ≤ chart.chartArea.right)
    (hca2 : chart.chartArea.top ≤ chart.chartArea.bottom)
    (r : DragRect)
    (hr : computeDragRect chart Mode.xy dm mirroring e1 e2 = some r) :
    r.left ≤ r.right ∧ r.top ≤ r.bottom := by
  unfold computeDragRect at hr
  simp only [directionEnabled] at hr
  repeat' split at hr
  all_goals cases hr
  all_goals try dsimp only
  all_goals constructor
  all_goals
    linarith [min_le_max (a := e1.point.x) (b := e2.point.x),
      min_le_max (a := e1.point.y) (b := e2.point.y), hca1, hca2]

/-- Witness for C3: a plain drag from (0,0) to (10,20) on the standard
chart. -/
theorem computeDragRect_normalized_witness :
    rectDemo.left ≤ rectDemo.right ∧ rectDemo.top ≤ rectDemo.bottom :=
  computeDragRect_normalized chartStd none false (evAt 0 0) (evAt 10 20)
    (by norm_num [chartStd]) (by norm_num [chartStd]) rectDemo
    (by
      norm_num [computeDragRect, directionEnabled, chartStd, evAt, baseEvent,
        rectDemo, min_def, max_def]
      intro h
      cases h)

/-- Claim C2: for a Range computation with direction mode `x` and mirroring
enabled, the one-sided span is doubled by extending past the endpoint the
drag started from, with the side chosen by whether the start point precedes
the end point on the axis; dragging 100→150 yields left 50, right 150 and
width 100, dragging 150→100 yields left 100, right 200 and width 100
(chart plot area of width 400, scales present). -/
theorem computeDragRect_mirrored_range (chart : Chart) (sx sy : Scale)
    (hx : chart.scales "x" = some sx) (hy : chart.scales "y" = some sy)
    (hw : chart.chartArea.width = 400)
    (e1 e2 : MouseEvent) :
    ∃ r, computeDragRect chart Mode.x (some DragMode.range) true e1 e2 = some r
      ∧ r.width = 2 * (max e1.point.x e2.point.x - min e1.point.x e2.point.x)
      ∧ (e1.point.x < e2.point.x →
          r.left = min e1.point.x e2.point.x -
            (max e1.point.x e2.point.x - min e1.point.x e2.point.x)
          ∧ r.right = max e1.point.x e2.point.x)
      ∧ (¬ e1.point.x < e2.point.x →
          r.left = min e1.point.x e2.point.x
          ∧ r.right = max e1.point.x e2.point.x +
            (max e1.point.x e2.point.x - min e1.point.x e2.point.x))
      ∧ (e1.point.x = 100 → e2.point.x = 150 →
          r.left = 50 ∧ r.right = 150 ∧ r.width = 100)
      ∧ (e1.point.x = 150 → e2.point.x = 100 →
          r.left = 100 ∧ r.right = 200 ∧ r.width = 100) := by
  unfold computeDragRect
  simp only [directionEnabled, hx, hy, eq_self_iff_true, true_and, and_true,
    and_self, if_true, Bool.false_eq_true, false_and, if_false]
  by_cases hlt : e1.point.x < e2.point.x
  · refine ⟨_, rfl, ?_, ?_, ?_, ?_, ?_⟩
    · simp only [if_pos hlt]
      try dsimp only
      ring
    · intro _
      simp only [if_pos hlt]
      constructor <;> trivial
    · intro hc
      exact absurd hlt hc
    · intro h1 h2
      simp only [if_pos hlt]
      try dsimp only
      rw [h1, h2]
      norm_num [min_def, max_def]
    · intro h1 h2
      rw [h1, h2] at hlt
      norm_num at hlt
  · refine ⟨_, rfl, ?_, ?_, ?_, ?_, ?_⟩
    · simp only [if_neg hlt]
      try dsimp only
      ring
    · intro hc
      exact absurd hc hlt
    · intro _
      simp only [if_neg hlt]
      constructor <;> trivial
    · intro h1 h2
      rw [h1, h2] at hlt
      norm_num at hlt
    · intro h1 h2
      simp only [if_neg hlt]
      try dsimp only
      rw [h1, h2]
      norm_num [min_def, max_def]

/-- Witness for C2: the 100→150 drag on the standard chart. -/
theorem computeDragRect_mirrored_range_witness :
    ∃ r, computeDragRect chartStd Mode.x (some DragMode.range) true
        (evAt 100 0) (evAt 150 0) = some r
      ∧ r.width = 2 * (max (evAt 100 0).point.x (evAt 150 0).point.x -
          min (evAt 100 0).point.x (evAt 150 0).point.x)
      ∧ ((evAt 100 0).point.x < (evAt 150 0).point.x →
          r.left = min (evAt 100 0).point.x (evAt 150 0).point.x -
            (max (evAt 100 0).point.x (evAt 150 0).point.x -
              min (evAt 100 0).point.x (evAt 150 0).point.x)
          ∧ r.right = max (evAt 100 0).point.x (evAt 150 0).point.x)
      ∧ (¬ (evAt 100 0).point.x < (evAt 150 0).point.x →
          r.left = min (evAt 100 0).point.x (evAt 150 0).point.x
          ∧ r.right = max (evAt 100 0).point.x (evAt 150 0).point.x +
            (max (evAt 100 0).point.x (evAt 150 0).point.x -
              min (evAt 100 0).point.x (evAt 150 0).point.x))
      ∧ ((evAt 100 0).point.x = 100 → (evAt 150 0).point.x = 150 →
          r.left = 50 ∧ r.right = 150 ∧ r.width = 100)
      ∧ ((evAt 100 0).point.x = 150 → (evAt 150 0).point.x = 100 →
          r.left = 100 ∧ r.right = 200 ∧ r.width = 100) :=
  computeDragRect_mirrored_range chartStd ⟨fun p => p⟩ ⟨fun p => p⟩ rfl rfl rfl
    (evAt 100 0) (evAt 150 0)

/-- Claim C10: whenever `computeDragRect` runs with gesture kind Range, it
looks up the scales named exactly `x` and `y` regardless of the direction
mode: the computation is total precisely when both scales exist, and on
success `rangeDataIndex` holds both the x entry (left/right) and the y entry
(top/bottom), each obtained through the respective scale's
`getValueForPixel` applied to the rectangle's edges. -/
theorem computeDragRect_range_scales (chart : Chart) (mode : Mode)
    (mirroring : Bool) (e1 e2 : MouseEvent) :
    ((computeDragRect chart mode (some DragMode.range) mirroring e1 e2).isSome = true ↔
      (chart.scales "x").isSome = true ∧ (chart.scales "y").isSome = true)
    ∧ ∀ sx sy r, chart.scales "x" = some sx → chart.scales "y" = some sy →
        computeDragRect chart mode (some DragMode.range) mirroring e1 e2 = some r →
        r.rangeDataIndex =
          some ⟨⟨sx.getValueForPixel r.left, sx.getValueForPixel r.right⟩,
            ⟨sy.getValueForPixel r.top, sy.getValueForPixel r.bottom⟩⟩ := by
  constructor
  · rcases hsx : chart.scales "x" with _ | sx <;>
      rcases hsy : chart.scales "y" with _ | sy <;>
      (unfold computeDragRect; simp [hsx, hsy])
  · intro sx sy r hsx hsy hr
    unfold computeDragRect at hr
    simp only [hsx, hsy, reduceIte] at hr
    injection hr with hr2
    rw [← hr2]

/-- Witness for C10: a mirrored Range gesture on the standard chart in mode
`xy`. -/
theorem computeDragRect_range_scales_witness :
    (computeDragRect chartStd Mode.xy (some DragMode.range) true
        (evAt 1 2) (evAt 3 4)).isSome = true
    ∧ rectRangeDemo.rangeDataIndex =
        some ⟨⟨rectRangeDemo.left, rectRangeDemo.right⟩,
          ⟨rectRangeDemo.top, rectRangeDemo.bottom⟩⟩ := by
  have h := computeDragRect_range_scales chartStd Mode.xy true (evAt 1 2) (evAt 3 4)
  constructor
  · exact h.1.mpr ⟨rfl, rfl⟩
  · exact h.2 ⟨fun p => p⟩ ⟨fun p => p⟩ rectRangeDemo rfl rfl
      (by
        norm_num [computeDragRect, directionEnabled, chartStd, evAt, baseEvent,
          rectRangeDemo, min_def, max_def])

/-- Claim C7: with drag-zoom gated on ctrl, a primary mousedown without the
ctrl flag (and with no other gesture's modifier predicate satisfied — here
the range gesture's gate blocks) leaves the state untouched (no drag
started, no listeners attached) and fires the configured `onZoomRejected`
exactly once, carrying the triggering event. -/
theorem mouseDown_modifier_gate (s : PluginState) (e : MouseEvent)
    (opts : PluginOptions)
    (hdrag : opts.zoom.drag.modifierKey = some ModKey.ctrl)
    (hctrl : e.ctrlKey = false)
    (hrange : keyNotPressed opts.range.modifierKey e = true)
    (hrej : opts.zoom.onZoomRejected = true) :
    mouseDown s e opts = (s, [Effect.onZoomRejected e]) := by
  have hnd : keyNotPressed opts.zoom.drag.modifierKey e = true := by
    rw [hdrag]
    simp [keyNotPressed, modPressed, hctrl]
  unfold mouseDown
  rw [if_pos (Or.inr (Or.inr ⟨hrange, hnd⟩))]
  simp [callEffect, hrej]

/-- Witness for C7: ctrl-gated drag, mousedown without ctrl. -/
theorem mouseDown_modifier_gate_witness :
    mouseDown initialState baseEvent optsCtrlDrag =
      (initialState, [Effect.onZoomRejected baseEvent]) :=
  mouseDown_modifier_gate initialState baseEvent optsCtrlDrag rfl rfl
    (by decide) rfl

theorem zoomStart_snd_effects (opts : PluginOptions) (e : MouseEvent)
    (eff : Effect) (hmem : eff ∈ (zoomStart opts e).2) :
    eff = Effect.onZoomStartCalled ∨ eff = Effect.onZoomRejected e := by
  unfold zoomStart at hmem
  rcases hz : opts.zoom.onZoomStart with _ | f
  · rw [hz] at hmem
    simp at hmem
  · rw [hz] at hmem
    by_cases hf : f e = true
    · simp [hf] at hmem
      exact Or.inl hmem
    · by_cases hrj : opts.zoom.onZoomRejected = true
      · simp [hf, hrj, callEffect] at hmem
        exact hmem
      · simp [hf, hrj, callEffect] at hmem
        exact Or.inl hmem

theorem zoomStart_snd_no_wheel_effects (opts : PluginOptions) (e : MouseEvent) :
    Effect.preventDefault ∉ (zoomStart opts e).2
    ∧ Effect.debouncedZoomComplete ∉ (zoomStart opts e).2
    ∧ ∀ x y fp, Effect.zoomCall x y fp ∉ (zoomStart opts e).2 := by
  refine ⟨fun hmem => ?_, fun hmem => ?_, fun x y fp hmem => ?_⟩
  · rcases zoomStart_snd_effects opts e _ hmem with h | h <;> cases h
  · rcases zoomStart_snd_effects opts e _ hmem with h | h <;> cases h
  · rcases zoomStart_snd_effects opts e _ hmem with h | h <;> cases h

/-- Claim C6 counterexample: a cancelable wheel event with `deltaY`
undefined that passes the modifier gate still gets `preventDefault` — the
suppression happens before the degenerate-delta check, not after. -/
theorem wheel_degenerate_counterexample :
    wheelDegenEvent.deltaY = none
    ∧ Effect.preventDefault ∈ wheel initialState wheelDegenEvent optsStd := by
  constructor
  · rfl
  · decide

/-- Claim C6 (amended): a wheel event whose `deltaY` is undefined produces
no zoom and no (debounced) completion callback, but the browser default IS
suppressed whenever the event is cancelable and the modifier gate and start
veto pass — the delta check runs only after `preventDefault`. -/
theorem wheel_degenerate_spec (s : PluginState) (e : MouseEvent)
    (opts : PluginOptions) (hd : e.deltaY = none) :
    (∀ x y fp, Effect.zoomCall x y fp ∉ wheel s e opts)
    ∧ Effect.debouncedZoomComplete ∉ wheel s e opts
    ∧ (Effect.preventDefault ∈ wheel s e opts ↔
        keyNotPressed opts.zoom.wheel.modifierKey e = false
        ∧ (zoomStart opts e).1 = true ∧ e.cancelable = true) := by
  by_cases hk : keyNotPressed opts.zoom.wheel.modifierKey e = true
  · have hwp : wheelPreconditions e opts =
        (false, callEffect opts.zoom.onZoomRejected (Effect.onZoomRejected e)) := by
      unfold wheelPreconditions
      rw [if_pos hk]
    have hwheel : wheel s e opts =
        callEffect opts.zoom.onZoomRejected (Effect.onZoomRejected e) := by
      unfold wheel
      rw [hwp]
    rw [hwheel]
    by_cases hrj : opts.zoom.onZoomRejected = true <;>
      simp [callEffect, hrj, hk]
  · have hkf : keyNotPressed opts.zoom.wheel.modifierKey e = false :=
      Bool.not_eq_true _ ▸ (Bool.eq_false_iff.mpr hk)
    rcases hz : zoomStart opts e with ⟨b, effs0⟩
    have hno := zoomStart_snd_no_wheel_effects opts e
    rw [hz] at hno
    cases b
    · have hwp : wheelPreconditions e opts = (false, effs0) := by
        unfold wheelPreconditions
        rw [if_neg hk, hz]
      have hwheel : wheel s e opts = effs0 := by
        unfold wheel
        rw [hwp]
      rw [hwheel]
      refine ⟨hno.2.2, hno.2.1, ?_⟩
      constructor
      · intro hmem
        exact absurd hmem hno.1
      · rintro ⟨-, hb, -⟩
        simp at hb
    · have hwp : wheelPreconditions e opts =
          (false, effs0 ++ if e.cancelable then [Effect.preventDefault] else []) := by
        unfold wheelPreconditions
        rw [if_neg hk, hz]
        simp [hd]
      have hwheel : wheel s e opts =
          effs0 ++ if e.cancelable then [Effect.preventDefault] else [] := by
        unfold wheel
        rw [hwp]
      rw [hwheel]
      refine ⟨?_, ?_, ?_⟩
      · intro x y fp hmem
        rcases List.mem_append.mp hmem with hm | hm
        · exact absurd hm (hno.2.2 x y fp)
        · by_cases hc : e.cancelable = true <;> simp [hc] at hm
      · intro hmem
        rcases List.mem_append.mp hmem with hm | hm
        · exact absurd hm hno.2.1
        · by_cases hc : e.cancelable = true <;> simp [hc] at hm
      · constructor
        · intro hmem
          rcases List.mem_append.mp hmem with hm | hm
          · exact absurd hm hno.1
          · by_cases hc : e.cancelable = true
            · exact ⟨hkf, rfl, hc⟩
            · simp [hc] at hm
        · rintro ⟨-, -, hc⟩
          exact List.mem_append.mpr (Or.inr (by simp [hc]))

/-- Witness for the amended C6 at the concrete degenerate wheel event. -/
theorem wheel_degenerate_spec_witness :
    (∀ x y fp, Effect.zoomCall x y fp ∉ wheel initialState wheelDegenEvent optsStd)
    ∧ Effect.debouncedZoomComplete ∉ wheel initialState wheelDegenEvent optsStd
    ∧ (Effect.preventDefault ∈ wheel initialState wheelDegenEvent optsStd ↔
        keyNotPressed optsStd.zoom.wheel.modifierKey wheelDegenEvent = false
        ∧ (zoomStart optsStd wheelDegenEvent).1 = true
        ∧ wheelDegenEvent.cancelable = true) :=
  wheel_degenerate_spec initialState wheelDegenEvent optsStd rfl

/-- Claim C9: for a wheel event that passes the wheel preconditions with
configured speed 0.1, exactly one symmetric zoom is applied with factor 0.9
when `deltaY ≥ 0` and 1.1 when `deltaY < 0`, anchored at the cursor position
relative to the event target's bounding box. -/
theorem wheel_speed_spec (s : PluginState) (e : MouseEvent)
    (opts : PluginOptions) (d : ℚ)
    (hspeed : opts.zoom.wheel.speed = 1/10)
    (hkey : keyNotPressed opts.zoom.wheel.modifierKey e = false)
    (hveto : (zoomStart opts e).1 = true)
    (hd : e.deltaY = some d) :
    (0 ≤ d →
      (wheel s e opts).count (Effect.zoomCall (9/10) (9/10)
          ⟨e.clientX - e.rectLeft, e.clientY - e.rectTop⟩) = 1
      ∧ ∀ x y fp, Effect.zoomCall x y fp ∈ wheel s e opts →
          x = 9/10 ∧ y = 9/10
          ∧ fp = ⟨e.clientX - e.rectLeft, e.clientY - e.rectTop⟩)
    ∧ (d < 0 →
      (wheel s e opts).count (Effect.zoomCall (11/10) (11/10)
          ⟨e.clientX - e.rectLeft, e.clientY - e.rectTop⟩) = 1
      ∧ ∀ x y fp, Effect.zoomCall x y fp ∈ wheel s e opts →
          x = 11/10 ∧ y = 11/10
          ∧ fp = ⟨e.clientX - e.rectLeft, e.clientY - e.rectTop⟩) := by
  have hknot : ¬ keyNotPressed opts.zoom.wheel.modifierKey e = true := by
    rw [hkey]
    exact Bool.false_ne_true
  rcases hz : zoomStart opts e with ⟨b, effs0⟩
  have hno := zoomStart_snd_no_wheel_effects opts e
  rw [hz] at hno hveto
  have hb : b = true := hveto
  subst hb
  have hwp : wheelPreconditions e opts =
      (true, effs0 ++ if e.cancelable then [Effect.preventDefault] else []) := by
    unfold wheelPreconditions
    rw [if_neg hknot, hz]
    simp [hd]
  have hwheel : wheel s e opts =
      (effs0 ++ if e.cancelable then [Effect.preventDefault] else []) ++
        [Effect.zoomCall (1 + (if 0 ≤ d then -(1/10) else 1/10))
            (1 + (if 0 ≤ d then -(1/10) else 1/10))
            ⟨e.clientX - e.rectLeft, e.clientY - e.rectTop⟩] ++
        (if (lookupH s.handlers "onZoomComplete").isSome then
          [Effect.debouncedZoomComplete] else []) := by
    unfold wheel
    rw [hwp, hd, hspeed]
  constructor
  · intro hdpos
    have hsp : (1 : ℚ) + (if 0 ≤ d then -(1/10) else 1/10) = 9/10 := by
      rw [if_pos hdpos]
      norm_num
    rw [hsp] at hwheel
    constructor
    · rw [hwheel, List.count_append, List.count_append, List.count_append]
      have c1 : effs0.count (Effect.zoomCall (9/10) (9/10)
          ⟨e.clientX - e.rectLeft, e.clientY - e.rectTop⟩) = 0 :=
        List.count_eq_zero.mpr (hno.2.2 _ _ _)
      have c2 : (if e.cancelable then [Effect.preventDefault] else []).count
          (Effect.zoomCall (9/10) (9/10)
            ⟨e.clientX - e.rectLeft, e.clientY - e.rectTop⟩) = 0 := by
        by_cases hc : e.cancelable = true <;> simp [hc]
      have c4 : (if (lookupH s.handlers "onZoomComplete").isSome then
          [Effect.debouncedZoomComplete] else []).count
          (Effect.zoomCall (9/10) (9/10)
            ⟨e.clientX - e.rectLeft, e.clientY - e.rectTop⟩) = 0 := by
        by_cases hh : (lookupH s.handlers "onZoomComplete").isSome = true <;>
          simp [hh]
      rw [c1, c2, c4]
      simp
    · intro x y fp hmem
      rw [hwheel] at hmem
      rcases List.mem_append.mp hmem with hm | hm
      · rcases List.mem_append.mp hm with hm2 | hm2
        · rcases List.mem_append.mp hm2 with hm3 | hm3
          · exact absurd hm3 (hno.2.2 x y fp)
          · by_cases hc : e.cancelable = true <;> simp [hc] at hm3
        · simp at hm2
          exact ⟨hm2.1, hm2.2.1, hm2.2.2⟩
      · by_cases hh : (lookupH s.handlers "onZoomComplete").isSome = true <;>
          simp [hh] at hm
  · intro hdneg
    have hsp : (1 : ℚ) + (if 0 ≤ d then -(1/10) else 1/10) = 11/10 := by
      rw [if_neg (not_le.mpr hdneg)]
      norm_num
    rw [hsp] at hwheel
    constructor
    · rw [hwheel, List.count_append, List.count_append, List.count_append]
      have c1 : effs0.count (Effect.zoomCall (11/10) (11/10)
          ⟨e.clientX - e.rectLeft, e.clientY - e.rectTop⟩) = 0 :=
        List.count_eq_zero.mpr (hno.2.2 _ _ _)
      have c2 : (if e.cancelable then [Effect.preventDefault] else []).count
          (Effect.zoomCall (11/10) (11/10)
            ⟨e.clientX - e.rectLeft, e.clientY - e.rectTop⟩) = 0 := by
        by_cases hc : e.cancelable = true <;> simp [hc]
      have c4 : (if (lookupH s.handlers "onZoomComplete").isSome then
          [Effect.debouncedZoomComplete] else []).count
          (Effect.zoomCall (11/10) (11/10)
            ⟨e.clientX - e.rectLeft, e.clientY - e.rectTop⟩) = 0 := by
        by_cases hh : (lookupH s.handlers "onZoomComplete").isSome = true <;>
          simp [hh]
      rw [c1, c2, c4]
      simp
    · intro x y fp hmem
      rw [hwheel] at hmem
      rcases List.mem_append.mp hmem with hm | hm
      · rcases List.mem_append.mp hm with hm2 | hm2
        · rcases List.mem_append.mp hm2 with hm3 | hm3
          · exact absurd hm3 (hno.2.2 x y fp)
          · by_cases hc : e.cancelable = true <;> simp [hc] at hm3
        · simp at hm2
          exact ⟨hm2.1, hm2.2.1, hm2.2.2⟩
      · by_cases hh : (lookupH s.handlers "onZoomComplete").isSome = true <;>
          simp [hh] at hm

/-- Witness for C9: a downward wheel (`deltaY = 3`) on the standard options
yields one zoom with factor 0.9 at focal point (16, 24). -/
theorem wheel_speed_spec_witness :
    (wheel initialState wheelEvt optsStd).count (Effect.zoomCall (9/10) (9/10)
        ⟨wheelEvt.clientX - wheelEvt.rectLeft, wheelEvt.clientY - wheelEvt.rectTop⟩) = 1
    ∧ ∀ x y fp, Effect.zoomCall x y fp ∈ wheel initialState wheelEvt optsStd →
        x = 9/10 ∧ y = 9/10
        ∧ fp = ⟨wheelEvt.clientX - wheelEvt.rectLeft,
            wheelEvt.clientY - wheelEvt.rectTop⟩ :=
  (wheel_speed_spec initialState wheelEvt optsStd 3 rfl rfl rfl rfl).1
    (by norm_num)

theorem distanceLe_iff_sqrt_le (dsq t : ℚ) (h : 0 ≤ dsq) :
    distanceLe dsq t = true ↔ Real.sqrt ((dsq : ℚ) : ℝ) ≤ ((t : ℚ) : ℝ) := by
  unfold distanceLe
  rw [decide_eq_true_eq]
  constructor
  · rintro ⟨ht, hle⟩
    have h1 : Real.sqrt ((dsq : ℚ) : ℝ) ≤ Real.sqrt (((t : ℚ) : ℝ) * ((t : ℚ) : ℝ)) := by
      apply Real.sqrt_le_sqrt
      exact_mod_cast hle
    rwa [Real.sqrt_mul_self (by exact_mod_cast ht)] at h1
  · intro hs
    have ht : (0 : ℝ) ≤ ((t : ℚ) : ℝ) := le_trans (Real.sqrt_nonneg _) hs
    have h2 : ((dsq : ℚ) : ℝ) ≤ ((t : ℚ) : ℝ) * ((t : ℚ) : ℝ) := by
      have h3 := mul_self_le_mul_self (Real.sqrt_nonneg ((dsq : ℚ) : ℝ)) hs
      rwa [Real.mul_self_sqrt (by exact_mod_cast h)] at h3
    exact ⟨by exact_mod_cast ht, by exact_mod_cast h2⟩

/-- Claim C1: on mouseUp with a pending drag, let d be the Euclidean
distance built from the computed rectangle's width (x enabled) and height
(y enabled).  If d ≤ the configured drag threshold the gesture is a
completed no-op: dragStart/dragEnd/dragMode/dragging are all cleared and no
completion callback (zoomRect, onZoomComplete, onRangeSelected) is invoked.
If d > threshold and the drag mode is Drag, `zoomRect` is invoked exactly
once with corners (left,top)-(right,bottom) and `onZoomComplete` fires
exactly once. -/
theorem mouseUp_threshold_spec (chart : Chart) (s : PluginState)
    (opts : PluginOptions) (e0 e : MouseEvent) (r : DragRect)
    (mode : Mode) (dx dy : ℚ)
    (hs : s.dragStart = some e0)
    (hmode : mode = (if s.dragMode = some DragMode.range then opts.range.mode
      else opts.zoom.mode))
    (hr : computeDragRect chart mode s.dragMode opts.range.mirroring e0 e = some r)
    (hdx : dx = (if directionEnabled mode Axis.x then r.width else 0))
    (hdy : dy = (if directionEnabled mode Axis.y then r.height else 0)) :
    (Real.sqrt ((dx * dx + dy * dy : ℚ) : ℝ) ≤ ((opts.zoom.drag.threshold : ℚ) : ℝ) →
      ∃ s1 effs, mouseUp chart s e opts = some (s1, effs)
        ∧ s1.dragStart = none ∧ s1.dragEnd = none ∧ s1.dragMode = none
        ∧ s1.dragging = false
        ∧ effs = [Effect.updateNone]
        ∧ (∀ p0 p1, Effect.zoomRectCall p0 p1 ∉ effs)
        ∧ Effect.onZoomComplete ∉ effs
        ∧ (∀ rdi, Effect.onRangeSelected rdi ∉ effs))
    ∧ (((opts.zoom.drag.threshold : ℚ) : ℝ) < Real.sqrt ((dx * dx + dy * dy : ℚ) : ℝ) →
        s.dragMode = some DragMode.drag → opts.zoom.onZoomComplete = true →
        ∃ s1 effs, mouseUp chart s e opts = some (s1, effs)
          ∧ effs = [Effect.zoomRectCall ⟨r.left, r.top⟩ ⟨r.right, r.bottom⟩,
              Effect.onZoomComplete, Effect.scheduleDraggingClear]
          ∧ effs.count (Effect.zoomRectCall ⟨r.left, r.top⟩ ⟨r.right, r.bottom⟩) = 1
          ∧ effs.count Effect.onZoomComplete = 1
          ∧ s1.dragStart = none ∧ s1.dragEnd = none ∧ s1.dragMode = none) := by
  have hpos : (0 : ℚ) ≤ dx * dx + dy * dy :=
    add_nonneg (mul_self_nonneg dx) (mul_self_nonneg dy)
  constructor
  · intro hle
    have hA : distanceLe (dx * dx + dy * dy) opts.zoom.drag.threshold = true := by
      rw [distanceLe_iff_sqrt_le _ _ hpos]
      exact hle
    have hmu : mouseUp chart s e opts =
        some ({ removeHandler s "mousemove" with
                dragStart := none, dragEnd := none,
                dragging := false, dragMode := none }, [Effect.updateNone]) := by
      simp only [mouseUp, hs, ← hmode, hr, ← hdx, ← hdy, hA, eq_self_iff_true,
        if_true]
    exact ⟨_, _, hmu, rfl, rfl, rfl, rfl, rfl, by simp, by simp, by simp⟩
  · intro hlt hdm hoz
    have hB : distanceLe (dx * dx + dy * dy) opts.zoom.drag.threshold = false := by
      rcases htf : distanceLe (dx * dx + dy * dy) opts.zoom.drag.threshold with _ | _
      · rfl
      · exact absurd ((distanceLe_iff_sqrt_le _ _ hpos).mp htf) (not_le.mpr hlt)
    have hmu : mouseUp chart s e opts =
        some ({ removeHandler s "mousemove" with
                dragStart := none, dragEnd := none, dragMode := none },
          [Effect.zoomRectCall ⟨r.left, r.top⟩ ⟨r.right, r.bottom⟩,
            Effect.onZoomComplete, Effect.scheduleDraggingClear]) := by
      simp only [mouseUp, hs, ← hmode, hr]
      simp only [← hdx, ← hdy, hB, hdm, hoz, callEffect, reduceIte,
        eq_self_iff_true, if_true, Bool.false_eq_true, if_false,
        List.cons_append, List.singleton_append, List.nil_append]
    refine ⟨_, _, hmu, rfl, ?_, ?_, rfl, rfl, rfl⟩
    · rw [List.count_cons_self]
      rw [List.count_eq_zero.mpr (by simp)]
    · simp [List.count_cons]

/-- Witness for C1: the spec's end-to-end drag from (50,50) to (160,170)
with threshold 10 on a 400×300 plot area (distance √26500 > 10). -/
theorem mouseUp_threshold_spec_witness :
    ∃ s1 effs, mouseUp chartStd dragState (evAt 160 170) optsStd = some (s1, effs)
      ∧ effs = [Effect.zoomRectCall ⟨rectDrag.left, rectDrag.top⟩
            ⟨rectDrag.right, rectDrag.bottom⟩,
          Effect.onZoomComplete, Effect.scheduleDraggingClear]
      ∧ effs.count (Effect.zoomRectCall ⟨rectDrag.left, rectDrag.top⟩
          ⟨rectDrag.right, rectDrag.bottom⟩) = 1
      ∧ effs.count Effect.onZoomComplete = 1
      ∧ s1.dragStart = none ∧ s1.dragEnd = none ∧ s1.dragMode = none := by
  have hd1 : distanceLe (110 * 110 + 120 * 120 : ℚ) 10 = false := by
    simp [distanceLe]
    norm_num
  have hn : ¬ (Real.sqrt ((110 * 110 + 120 * 120 : ℚ) : ℝ) ≤ ((10 : ℚ) : ℝ)) := by
    intro hc
    have h2 := (distanceLe_iff_sqrt_le (110 * 110 + 120 * 120) 10 (by norm_num)).mpr hc
    rw [hd1] at h2
    cases h2
  exact (mouseUp_threshold_spec chartStd dragState optsStd (evAt 50 50)
      (evAt 160 170) rectDrag Mode.xy 110 120 rfl rfl
      (by
        norm_num [computeDragRect, directionEnabled, chartStd, evAt, baseEvent,
          rectDrag, dragState, optsStd, min_def, max_def]
        simp only [show (DragMode.drag = DragMode.range) = False from
          eq_false (by decide), if_false, reduceIte]
        norm_num)
      rfl rfl).2 (not_le.mp hn) rfl rfl

end ChartZoom
